import Mathlib

/-!
Verification of the hover/click interaction and camera-flight layer of the
3d-senior-portfolio application (src/main.js), shallowly embedded.

Modelling conventions:
* positions, scales, opacities and timestamps are rationals;
* the raycaster result is an oracle input: the struck scene node id, as in
  `intersects[0].object` (the ray/geometry math lives in the THREE library,
  not in this repository);
* the scene graph is a finite parent-indexed forest (`SceneGraph`); THREE's
  `Object3D.traverse` of a node visits the node and its descendants, which we
  compute through the reflexive ancestor chain `ancestorChain`;
* the requestAnimationFrame loop is an increasing list of frame timestamps;
  a camera-flight callback registered at time `t0` runs at every frame after
  `t0` until (and including) the first frame at which its progress reaches 1,
  exactly as the self-rescheduling closure in `animateCameraToObject` does.
-/

/-- A three-component vector (`THREE.Vector3` with rational coordinates). -/
@[ext]
structure Vec3 where
  x : ℚ
  y : ℚ
  z : ℚ
deriving DecidableEq

/-- Componentwise vector addition. -/
def vadd (a b : Vec3) : Vec3 := ⟨a.x + b.x, a.y + b.y, a.z + b.z⟩

/-- Scalar interpolation `a + (b - a) * t`, as used by `Vector3.lerpVectors`. -/
def lerpQ (a b t : ℚ) : ℚ := a + (b - a) * t

/-- Componentwise linear interpolation, `THREE.Vector3.lerpVectors`. -/
def lerpVectors (a b : Vec3) (t : ℚ) : Vec3 :=
  ⟨lerpQ a.x b.x t, lerpQ a.y b.y t, lerpQ a.z b.z t⟩

/-- Camera position plus the OrbitControls look-at target. -/
@[ext]
structure CameraPose where
  position : Vec3
  target : Vec3
deriving DecidableEq

/-- Constant `idealDistance = 3` (src/main.js:504). -/
def idealDistance : ℚ := 3

/-- Constant `idealHeight = 2` (src/main.js:505). -/
def idealHeight : ℚ := 2

/-- Constant `duration = 1500` (src/main.js:518). -/
def flightDuration : ℚ := 1500

/-- One camera flight: the values captured by `animateCameraToObject`
(`startPosition`, `startTarget`, `newPosition`, `newTarget`, `startTime`). -/
structure Flight where
  startPosition : Vec3
  startTarget : Vec3
  endPosition : Vec3
  endTarget : Vec3
  startTime : ℚ
deriving DecidableEq

/-- Source `animateCameraToObject` (src/main.js:497-519): captures the live camera
pose as the start values and computes the end pose from the target object's
current `position` — `newPosition = objectPosition + (3, 2, 3)` and
`newTarget = objectPosition + (0, 0.5, 0)`. -/
def animateCameraToObject (cam : CameraPose) (objectPosition : Vec3) (t0 : ℚ) : Flight :=
  { startPosition := cam.position
    startTarget := cam.target
    endPosition := ⟨objectPosition.x + idealDistance, objectPosition.y + idealHeight,
                    objectPosition.z + idealDistance⟩
    endTarget := ⟨objectPosition.x, objectPosition.y + 1/2, objectPosition.z⟩
    startTime := t0 }

/-- Easing curve `t => t < 0.5 ? 2 * t * t : -1 + (4 - 2 * t) * t`
(src/main.js:526). -/
def easeInOut (t : ℚ) : ℚ := if t < 1/2 then 2 * t * t else -1 + (4 - 2 * t) * t

/-- Progress value `Math.min(elapsed / duration, 1)` (src/main.js:523). -/
def flightProgress (f : Flight) (t : ℚ) : ℚ := min ((t - f.startTime) / flightDuration) 1

/-- The camera pose written by one tick of the flight closure
(src/main.js:530-531): lerp of position and target by the eased progress. -/
def flightPose (f : Flight) (t : ℚ) : CameraPose :=
  { position := lerpVectors f.startPosition f.endPosition (easeInOut (flightProgress f t))
    target := lerpVectors f.startTarget f.endTarget (easeInOut (flightProgress f t)) }

/- ### Helper lemmas about the flight math -/

lemma lerpQ_zero (a b : ℚ) : lerpQ a b 0 = a := by simp [lerpQ]

lemma lerpQ_one (a b : ℚ) : lerpQ a b 1 = b := by unfold lerpQ; ring

lemma lerpVectors_zero (a b : Vec3) : lerpVectors a b 0 = a := by
  unfold lerpVectors
  rw [lerpQ_zero, lerpQ_zero, lerpQ_zero]

lemma lerpVectors_one (a b : Vec3) : lerpVectors a b 1 = b := by
  unfold lerpVectors
  rw [lerpQ_one, lerpQ_one, lerpQ_one]

lemma lerpVectors_ne_right {a b : Vec3} {e : ℚ} (hab : a ≠ b) (he : e ≠ 1) :
    lerpVectors a b e ≠ b := by
  intro hEq
  apply hab
  have hx : lerpQ a.x b.x e = b.x := congrArg Vec3.x hEq
  have hy : lerpQ a.y b.y e = b.y := congrArg Vec3.y hEq
  have hz : lerpQ a.z b.z e = b.z := congrArg Vec3.z hEq
  have key : ∀ u v : ℚ, lerpQ u v e = v → u = v := by
    intro u v huv
    have h0 : (v - u) * (1 - e) = 0 := by
      unfold lerpQ at huv
      linear_combination -huv
    rcases mul_eq_zero.mp h0 with h | h
    · linarith
    · exact absurd (by linarith : e = 1) he
  ext
  · exact key _ _ hx
  · exact key _ _ hy
  · exact key _ _ hz

lemma easeInOut_zero : easeInOut 0 = 0 := by norm_num [easeInOut]

lemma easeInOut_half : easeInOut (1/2) = 1/2 := by norm_num [easeInOut]

lemma easeInOut_one : easeInOut 1 = 1 := by norm_num [easeInOut]

lemma easeInOut_lt_one {t : ℚ} (h0 : 0 ≤ t) (h1 : t < 1) : easeInOut t < 1 := by
  unfold easeInOut
  split_ifs with h
  · nlinarith
  · nlinarith

lemma flightDuration_pos : (0 : ℚ) < flightDuration := by norm_num [flightDuration]

lemma flightProgress_at_start (f : Flight) : flightProgress f f.startTime = 0 := by
  unfold flightProgress
  norm_num [flightDuration]

lemma flightProgress_nonneg {f : Flight} {t : ℚ} (h : f.startTime ≤ t) :
    0 ≤ flightProgress f t := by
  unfold flightProgress
  have h1 : (0 : ℚ) ≤ (t - f.startTime) / flightDuration :=
    div_nonneg (by linarith) (le_of_lt flightDuration_pos)
  exact le_min h1 (by norm_num)

lemma flightProgress_le_one (f : Flight) (t : ℚ) : flightProgress f t ≤ 1 :=
  min_le_right _ _

lemma flightProgress_lt_one {f : Flight} {t : ℚ} (h : t < f.startTime + flightDuration) :
    flightProgress f t < 1 := by
  unfold flightProgress
  have hlt : (t - f.startTime) / flightDuration < 1 := by
    rw [div_lt_one flightDuration_pos]
    linarith
  exact lt_of_le_of_lt (min_le_left _ _) hlt

lemma flightProgress_of_done {f : Flight} {t : ℚ} (h : f.startTime + flightDuration ≤ t) :
    flightProgress f t = 1 := by
  unfold flightProgress
  have h1 : (1 : ℚ) ≤ (t - f.startTime) / flightDuration := by
    rw [le_div_iff₀ flightDuration_pos]
    linarith
  exact min_eq_right h1

lemma flightPose_at_start (f : Flight) :
    flightPose f f.startTime = ⟨f.startPosition, f.startTarget⟩ := by
  unfold flightPose
  rw [flightProgress_at_start, easeInOut_zero, lerpVectors_zero, lerpVectors_zero]

lemma flightPose_of_done {f : Flight} {t : ℚ} (h : f.startTime + flightDuration ≤ t) :
    flightPose f t = ⟨f.endPosition, f.endTarget⟩ := by
  unfold flightPose
  rw [flightProgress_of_done h, easeInOut_one, lerpVectors_one, lerpVectors_one]

/-- Example camera start pose: `camera.position.set(0, 5, 10)` with the
default OrbitControls target at the origin (src/main.js:112,124). -/
def camEx : CameraPose := ⟨⟨0, 5, 10⟩, ⟨0, 0, 0⟩⟩

/-- Example flight used by witnesses. -/
def flightEx : Flight := animateCameraToObject camEx ⟨-2, 0, 0⟩ 0

/-- Claim C6: during a camera flight, at progress 0 the interpolated pose
equals the start pose and at progress 1 it equals the end pose exactly; the
easing function `t < 0.5 ? 2t² : -1 + (4 - 2t)t` evaluates to 0 at 0, to 1/2
at 1/2 and to 1 at 1; and for any tick at or after the start time the
computed progress `min((now - start)/duration, 1)` lies in [0,1] and agrees
with clamping `(now - start)/duration` to [0,1]. -/
theorem easing_progress_boundary (f : Flight) :
    easeInOut 0 = 0 ∧ easeInOut (1/2) = 1/2 ∧ easeInOut 1 = 1
    ∧ flightPose f f.startTime = ⟨f.startPosition, f.startTarget⟩
    ∧ (∀ t, f.startTime + flightDuration ≤ t →
        flightPose f t = ⟨f.endPosition, f.endTarget⟩)
    ∧ (∀ t, f.startTime ≤ t →
        flightProgress f t = max 0 (min ((t - f.startTime) / flightDuration) 1)
        ∧ 0 ≤ flightProgress f t ∧ flightProgress f t ≤ 1) := by
  refine ⟨easeInOut_zero, easeInOut_half, easeInOut_one, flightPose_at_start f, ?_, ?_⟩
  · intro t ht
    exact flightPose_of_done ht
  · intro t ht
    refine ⟨?_, flightProgress_nonneg ht, flightProgress_le_one f t⟩
    have h1 : (0 : ℚ) ≤ (t - f.startTime) / flightDuration :=
      div_nonneg (by linarith) (le_of_lt flightDuration_pos)
    unfold flightProgress
    rw [max_eq_right (le_min h1 (by norm_num))]

/-- Witness for C6 at a concrete flight and tick time. -/
theorem easing_progress_boundary_witness :
    (flightEx.startTime + flightDuration ≤ 1600
      ∧ flightPose flightEx 1600 = ⟨flightEx.endPosition, flightEx.endTarget⟩)
    ∧ (flightEx.startTime ≤ 750
      ∧ flightProgress flightEx 750
          = max 0 (min ((750 - flightEx.startTime) / flightDuration) 1)) :=
  ⟨⟨by norm_num [flightEx, animateCameraToObject, flightDuration, camEx],
    (easing_progress_boundary flightEx).2.2.2.2.1 1600
      (by norm_num [flightEx, animateCameraToObject, flightDuration, camEx])⟩,
   ⟨by norm_num [flightEx, animateCameraToObject, camEx],
    ((easing_progress_boundary flightEx).2.2.2.2.2 750
      (by norm_num [flightEx, animateCameraToObject, camEx])).1⟩⟩

/- ### Scene graph and interaction state -/

/-- One scene-graph node: its parent link (`Object3D.parent`, `none` for a
root such as the `THREE.Scene`) and whether it is a renderable mesh
(`child.isMesh`). -/
structure SceneNode where
  parent : Option Nat
  isMesh : Bool
deriving DecidableEq

/-- The static scene structure plus the `InteractionManager.clickableObjects`
registry (node ids pushed by `addClickableObject`). -/
structure SceneGraph where
  nodes : List SceneNode
  clickableObjects : List Nat
deriving DecidableEq

/-- The parent link of a node (`intersects[0].object.parent`). -/
def parentOf (g : SceneGraph) (i : Nat) : Option Nat :=
  (g.nodes.get? i).bind SceneNode.parent

/-- Whether node `i` is a mesh. -/
def isMeshN (g : SceneGraph) (i : Nat) : Bool :=
  ((g.nodes.get? i).map SceneNode.isMesh).getD false

/-- The chain of ancestors of `i` (including `i` itself), fuel-bounded. -/
def ancestorChain (g : SceneGraph) : Nat → Nat → List Nat
  | 0, i => [i]
  | fuel + 1, i =>
      i :: (match parentOf g i with
            | some p => ancestorChain g fuel p
            | none => [])

/-- Predicate: `root` is an ancestor-or-self of `i`; equivalently, `Object3D.traverse`
starting at `root` visits `i` (for the tree-shaped graphs the app builds). -/
def inSubtree (g : SceneGraph) (root i : Nat) : Bool :=
  decide (root ∈ ancestorChain g g.nodes.length i)

lemma self_mem_ancestorChain (g : SceneGraph) (fuel i : Nat) :
    i ∈ ancestorChain g fuel i := by
  cases fuel with
  | zero => simp [ancestorChain]
  | succ n => simp [ancestorChain]

lemma inSubtree_self (g : SceneGraph) (i : Nat) : inSubtree g i i = true := by
  unfold inSubtree
  exact decide_eq_true (self_mem_ancestorChain g g.nodes.length i)

/-- Mutable per-node state: transform, material opacity (for mesh nodes),
`userData.type` and the lazily captured `userData.originalY`. -/
@[ext]
structure ObjState where
  pos : Vec3
  scale : Vec3
  opacity : ℚ
  userType : String
  originalY : Option ℚ
deriving DecidableEq

/-- The interaction manager's mutable state: each node's state (total over
node ids) plus the `document.body.style.cursor` affordance
(`true` = pointer, `false` = default). -/
@[ext]
structure TrackerState where
  objs : Nat → ObjState
  cursorPointer : Bool

/-- Source `addClickableObject(object, type)` (src/main.js:410-420): replaces the
object's `userData` with `{ type }` (so any previously captured `originalY`
is dropped) and appends the node to `clickableObjects`.  (Setting
`material.transparent = true` has no geometric effect in this model.) -/
def addClickableObject (g : SceneGraph) (s : Nat → ObjState) (i : Nat) (ty : String) :
    SceneGraph × (Nat → ObjState) :=
  ({ g with clickableObjects := g.clickableObjects ++ [i] },
   fun j => if j = i then { s j with userType := ty, originalY := none } else s j)

/-- Resolution step `intersects[0].object.parent || intersects[0].object`
(src/main.js:444,472):
the hit is resolved exactly one level up when a parent exists. -/
def resolveHit (g : SceneGraph) (h : Nat) : Nat :=
  match parentOf g h with
  | some p => p
  | none => h

/-- One iteration of the reset loop body (src/main.js:430-440) for the
clickable object `c`, described node-by-node: every mesh in `c`'s subtree gets
opacity 1.0, `c` itself gets unit scale, and `c`'s y is restored to
`userData.originalY` when that is defined. -/
def resetNode (g : SceneGraph) (c i : Nat) (o : ObjState) : ObjState :=
  if i = c then
    { o with
      opacity := if inSubtree g c i && isMeshN g i then 1 else o.opacity
      scale := ⟨1, 1, 1⟩
      pos := match o.originalY with
             | some y0 => ⟨o.pos.x, y0, o.pos.z⟩
             | none => o.pos }
  else
    { o with opacity := if inSubtree g c i && isMeshN g i then 1 else o.opacity }

/-- The full reset loop `this.clickableObjects.forEach(...)`
(src/main.js:430-440). -/
def resetAll (g : SceneGraph) (s : Nat → ObjState) : Nat → ObjState :=
  g.clickableObjects.foldl (fun acc c => fun i => resetNode g c i (acc i)) s

/-- Lazy capture `if (hoveredObject.userData.originalY === undefined)
       hoveredObject.userData.originalY = hoveredObject.position.y`
(src/main.js:447-449). -/
def captureNode (r i : Nat) (o : ObjState) : ObjState :=
  if i = r then
    match o.originalY with
    | none => { o with originalY := some o.pos.y }
    | some _ => o
  else o

/-- The hover-effect block (src/main.js:452-458): opacity 0.8 on every mesh in
the hovered node's subtree, scale 1.05 and `y = originalY + 0.05` on the
hovered node itself. -/
def hoverNode (g : SceneGraph) (r i : Nat) (o : ObjState) : ObjState :=
  if i = r then
    { o with
      opacity := if inSubtree g r i && isMeshN g i then 4/5 else o.opacity
      scale := ⟨21/20, 21/20, 21/20⟩
      pos := ⟨o.pos.x, o.originalY.getD o.pos.y + 1/20, o.pos.z⟩ }
  else
    { o with opacity := if inSubtree g r i && isMeshN g i then 4/5 else o.opacity }

/-- Source `onMouseMove` (src/main.js:422-462).  The raycast outcome is the oracle
`hit`: `some h` when `intersects.length > 0` with `h = intersects[0].object`,
`none` otherwise. -/
def onMouseMove (g : SceneGraph) (hit : Option Nat) (s : TrackerState) : TrackerState :=
  match hit with
  | some h =>
      { objs := fun i =>
          hoverNode g (resolveHit g h) i
            (captureNode (resolveHit g h) i (resetAll g s.objs i))
        cursorPointer := true }
  | none => { objs := resetAll g s.objs, cursorPointer := false }

/-- The outcome of a click: the (unchanged) tracker state, the flight started
by `animateCameraToObject` if any, and the content dispatch scheduled by the
`setTimeout(..., 500)` (the clicked object's `userData.type` and the fire
time), if any. -/
structure ClickResult where
  state : TrackerState
  flight : Option Flight
  scheduledDispatch : Option (String × ℚ)

/-- Delay of the `setTimeout(..., 500)` before content is shown (src/main.js:494). -/
def contentDelay : ℚ := 500

/-- Source `handleObjectClick` (src/main.js:477-495): starts a camera flight toward
the clicked object's current position and schedules content dispatch for its
`userData.type` after `contentDelay`. -/
def handleObjectClick (g : SceneGraph) (r : Nat) (s : TrackerState) (cam : CameraPose)
    (t : ℚ) : ClickResult :=
  { state := s
    flight := some (animateCameraToObject cam (s.objs r).pos t)
    scheduledDispatch := some ((s.objs r).userType, t + contentDelay) }

/-- Source `onMouseClick` (src/main.js:464-475): resolves the hit one level up and
calls `handleObjectClick`; with no intersection it does nothing. -/
def onMouseClick (g : SceneGraph) (hit : Option Nat) (s : TrackerState) (cam : CameraPose)
    (t : ℚ) : ClickResult :=
  match hit with
  | some h => handleObjectClick g (resolveHit g h) s cam t
  | none => { state := s, flight := none, scheduledDispatch := none }

/- ### Pointwise characterisation of the reset loop -/

/-- Net node-by-node effect of resetting every clickable object in `l`. -/
def resetPointwise (g : SceneGraph) (l : List Nat) (i : Nat) (o : ObjState) : ObjState :=
  if i ∈ l then
    { o with
      opacity := if l.any (fun c => inSubtree g c i) && isMeshN g i then 1 else o.opacity
      scale := ⟨1, 1, 1⟩
      pos := match o.originalY with
             | some y0 => ⟨o.pos.x, y0, o.pos.z⟩
             | none => o.pos }
  else
    { o with
      opacity := if l.any (fun c => inSubtree g c i) && isMeshN g i then 1 else o.opacity }

lemma resetPointwise_nil (g : SceneGraph) (i : Nat) (o : ObjState) :
    resetPointwise g [] i o = o := by
  simp [resetPointwise]

lemma resetPointwise_cons (g : SceneGraph) (c : Nat) (rest : List Nat) (i : Nat)
    (o : ObjState) :
    resetPointwise g rest i (resetNode g c i o) = resetPointwise g (c :: rest) i o := by
  rcases o with ⟨pos, scl, opac, ty, origY⟩
  unfold resetNode resetPointwise
  rcases origY with _ | y0 <;>
    by_cases hic : i = c <;>
      by_cases hir : i ∈ rest <;>
        by_cases hm : isMeshN g i <;>
          by_cases hsc : inSubtree g c i <;>
            by_cases hsr : rest.any (fun cc => inSubtree g cc i) <;>
              simp_all [List.mem_cons, List.any_cons] <;>
                simp_all [inSubtree_self]

lemma resetAll_apply (g : SceneGraph) :
    ∀ (l : List Nat) (s : Nat → ObjState) (i : Nat),
      (l.foldl (fun acc c => fun i => resetNode g c i (acc i)) s) i
        = resetPointwise g l i (s i) := by
  intro l
  induction l with
  | nil => intro s i; simp [resetPointwise_nil]
  | cons c rest ih =>
      intro s i
      simp only [List.foldl_cons]
      rw [ih (fun j => resetNode g c j (s j)) i]
      exact resetPointwise_cons g c rest i (s i)

/-- Node-by-node effect of a whole `onMouseMove` call. -/
def moveNode (g : SceneGraph) (hit : Option Nat) (i : Nat) (o : ObjState) : ObjState :=
  match hit with
  | some h =>
      hoverNode g (resolveHit g h) i
        (captureNode (resolveHit g h) i (resetPointwise g g.clickableObjects i o))
  | none => resetPointwise g g.clickableObjects i o

lemma onMouseMove_objs (g : SceneGraph) (hit : Option Nat) (s : TrackerState) (i : Nat) :
    (onMouseMove g hit s).objs i = moveNode g hit i (s.objs i) := by
  cases hit with
  | none => simp [onMouseMove, moveNode, resetAll, resetAll_apply]
  | some h => simp [onMouseMove, moveNode, resetAll, resetAll_apply]

lemma onMouseMove_cursor (g : SceneGraph) (hit : Option Nat) (s : TrackerState) :
    (onMouseMove g hit s).cursorPointer = hit.isSome := by
  cases hit <;> rfl

/- ### Idempotence of the pointer-move handler -/

lemma captureNode_originalY_isSome (r : Nat) (o : ObjState) :
    (captureNode r r o).originalY = some (o.originalY.getD o.pos.y) := by
  unfold captureNode
  rcases ho : o.originalY with _ | y0 <;> simp [ho]

lemma resetPointwise_originalY (g : SceneGraph) (l : List Nat) (i : Nat) (o : ObjState) :
    (resetPointwise g l i o).originalY = o.originalY := by
  unfold resetPointwise
  rcases ho : o.originalY with _ | y0 <;> split_ifs <;> simp [ho]

lemma resetPointwise_userType (g : SceneGraph) (l : List Nat) (i : Nat) (o : ObjState) :
    (resetPointwise g l i o).userType = o.userType := by
  unfold resetPointwise
  rcases ho : o.originalY with _ | y0 <;> split_ifs <;> simp [ho]

lemma moveNode_idem (g : SceneGraph) (hit : Option Nat) (i : Nat) (o : ObjState) :
    moveNode g hit i (moveNode g hit i o) = moveNode g hit i o := by
  cases hit with
  | none =>
      show resetPointwise g g.clickableObjects i (resetPointwise g g.clickableObjects i o)
            = resetPointwise g g.clickableObjects i o
      rcases o with ⟨pos, scl, opac, ty, origY⟩
      unfold resetPointwise
      rcases origY with _ | y0 <;>
        by_cases hil : i ∈ g.clickableObjects <;>
          by_cases hc : (g.clickableObjects.any fun c => inSubtree g c i) && isMeshN g i <;>
            simp_all
  | some h =>
      show moveNode g (some h) i (moveNode g (some h) i o) = moveNode g (some h) i o
      unfold moveNode
      rcases o with ⟨pos, scl, opac, ty, origY⟩
      unfold resetPointwise captureNode hoverNode
      rcases origY with _ | y0 <;>
        by_cases hir : i = resolveHit g h <;>
          by_cases hil : i ∈ g.clickableObjects <;>
            by_cases hcr : (g.clickableObjects.any fun c => inSubtree g c i) && isMeshN g i <;>
              by_cases hch : inSubtree g (resolveHit g h) i && isMeshN g i <;>
                simp_all

/-- Claim C7: `onMouseMove` is idempotent — a second call with the same
raycast outcome and no intervening scene change resolves the same hovered
object (the handler's hovered node is the deterministic `resolveHit` of the
hit) and leaves the entire visual state (per-node opacity, scale, position,
`originalY`, and the cursor affordance) exactly as after the first call. -/
theorem pointer_move_idempotent (g : SceneGraph) (hit : Option Nat) (s : TrackerState) :
    onMouseMove g hit (onMouseMove g hit s) = onMouseMove g hit s := by
  have hobjs : (onMouseMove g hit (onMouseMove g hit s)).objs = (onMouseMove g hit s).objs := by
    funext i
    simp only [onMouseMove_objs, moveNode_idem]
  have hcur : (onMouseMove g hit (onMouseMove g hit s)).cursorPointer
      = (onMouseMove g hit s).cursorPointer := by
    rw [onMouseMove_cursor, onMouseMove_cursor]
  exact TrackerState.ext hobjs hcur

/-- Claim C8: a click whose pick finds no intersection is a no-op — the
handler returns without starting a flight, without scheduling a content
dispatch, and without touching the tracker state or the camera. -/
theorem click_without_hit_noop (g : SceneGraph) (s : TrackerState) (cam : CameraPose)
    (t : ℚ) :
    (onMouseClick g none s cam t).state = s
    ∧ (onMouseClick g none s cam t).flight = none
    ∧ (onMouseClick g none s cam t).scheduledDispatch = none := by
  exact ⟨rfl, rfl, rfl⟩

/-- The baseline vertical coordinate the handlers work with: the lazily
captured `userData.originalY` if present, else the current y. -/
def baselineY (o : ObjState) : ℚ := o.originalY.getD o.pos.y

/-- Claim C10: `originalY` handling is lazy.  (1) `addClickableObject` leaves
`originalY` undefined (it replaces `userData` wholesale, so registration never
captures it).  (2) The reset pass leaves the y-position of a registered object
with undefined `originalY` unchanged.  (3) A pointer-move whose resolved hover
target has undefined `originalY` assigns it the target's current (pre-move)
y-coordinate. -/
theorem originalY_lazy_capture (g : SceneGraph) (s : Nat → ObjState) (i : Nat)
    (ty : String) (st : TrackerState) (h : Nat)
    (hfresh : (st.objs (resolveHit g h)).originalY = none) :
    ((addClickableObject g s i ty).2 i).originalY = none
    ∧ (∀ j, (s j).originalY = none → (resetAll g s j).pos.y = (s j).pos.y)
    ∧ ((onMouseMove g (some h) st).objs (resolveHit g h)).originalY
        = some ((st.objs (resolveHit g h)).pos.y) := by
  refine ⟨by simp [addClickableObject], ?_, ?_⟩
  · intro j hj
    show (g.clickableObjects.foldl (fun acc c => fun i => resetNode g c i (acc i)) s j).pos.y
          = (s j).pos.y
    rw [resetAll_apply]
    unfold resetPointwise
    split_ifs <;> simp [hj]
  · rw [onMouseMove_objs]
    unfold moveNode
    have hro : (resetPointwise g g.clickableObjects (resolveHit g h)
                  (st.objs (resolveHit g h))).originalY = none := by
      rw [resetPointwise_originalY]; exact hfresh
    have hry : (resetPointwise g g.clickableObjects (resolveHit g h)
                  (st.objs (resolveHit g h))).pos.y
                = (st.objs (resolveHit g h)).pos.y := by
      unfold resetPointwise
      split_ifs <;> simp [hfresh]
    have hcap := captureNode_originalY_isSome (resolveHit g h)
      (resetPointwise g g.clickableObjects (resolveHit g h) (st.objs (resolveHit g h)))
    rw [hro] at hcap
    simp only [Option.getD_none] at hcap
    unfold hoverNode
    simp [hcap, hry]

/- ### Concrete scenes used by counterexamples and witnesses -/

/-- Default state for untracked node ids. -/
def blankObj : ObjState := ⟨⟨0, 0, 0⟩, ⟨1, 1, 1⟩, 1, "", none⟩

/-- GLTF-style scene with two registered groups (nodes 0 and 2), each with one
direct mesh child (nodes 1 and 3).  Mirrors `add3DObjects` where each
registered object is a cloned `gltf.scene` group. -/
def gW : SceneGraph :=
  { nodes := [⟨none, false⟩, ⟨some 0, true⟩, ⟨none, false⟩, ⟨some 2, true⟩]
    clickableObjects := [0, 2] }

/-- States for `gW`: node 0 a laptop-style group at (-2, 0.05, 0), node 2 a
phone-style group at (2, 0.08, -1); meshes carry the renderable material. -/
def sW : TrackerState :=
  { objs := fun n =>
      match n with
      | 0 => ⟨⟨-2, 1/20, 0⟩, ⟨1, 1, 1⟩, 1, "laptop", none⟩
      | 1 => ⟨⟨-2, 1/20, 0⟩, ⟨1, 1, 1⟩, 1, "", none⟩
      | 2 => ⟨⟨2, 2/25, -1⟩, ⟨1, 1, 1⟩, 1, "phone", none⟩
      | 3 => ⟨⟨2, 2/25, -1⟩, ⟨1, 1, 1⟩, 1, "", none⟩
      | _ => blankObj
    cursorPointer := false }

/-- Fallback-style scene (`addFallbackObjects`): the registered clickable
objects are bare meshes (nodes 1 and 2) whose `parent` is the scene root
(node 0). -/
def gF : SceneGraph :=
  { nodes := [⟨none, false⟩, ⟨some 0, true⟩, ⟨some 0, true⟩]
    clickableObjects := [1, 2] }

/-- States for `gF`: fallback laptop mesh at (-2, 0.15, 0) and fallback phone
mesh at (2, 0.125, -1) sitting under the scene root. -/
def sF : TrackerState :=
  { objs := fun n =>
      match n with
      | 0 => ⟨⟨0, 0, 0⟩, ⟨1, 1, 1⟩, 1, "", none⟩
      | 1 => ⟨⟨-2, 3/20, 0⟩, ⟨1, 1, 1⟩, 1, "laptop", none⟩
      | 2 => ⟨⟨2, 1/8, -1⟩, ⟨1, 1, 1⟩, 1, "phone", none⟩
      | _ => blankObj
    cursorPointer := false }

/-- Nested composite: registered group 0 containing an intermediate group 1
containing the mesh 2. -/
def gN : SceneGraph :=
  { nodes := [⟨none, false⟩, ⟨some 0, false⟩, ⟨some 1, true⟩]
    clickableObjects := [0] }

/- ### Hover feedback (claim C2) -/

lemma isMeshN_lt {g : SceneGraph} {i : Nat} (h : isMeshN g i = true) :
    i < g.nodes.length := by
  cases Nat.lt_or_ge i g.nodes.length with
  | inl h' => exact h'
  | inr h' =>
      unfold isMeshN at h
      rw [List.get?_eq_none.mpr h'] at h
      simp at h

/-- After a pointer-move whose resolved hover target is `r`, the target's
vertical position is its baseline (the captured or freshly captured
`originalY`) plus the 0.05 hover lift. -/
lemma hovered_pos_y (g : SceneGraph) (h : Nat) (s : TrackerState) :
    ((onMouseMove g (some h) s).objs (resolveHit g h)).pos.y
      = baselineY (s.objs (resolveHit g h)) + 1/20 := by
  rw [onMouseMove_objs]
  unfold moveNode hoverNode
  simp only [if_pos rfl]
  rw [captureNode_originalY_isSome]
  simp only [Option.getD_some]
  rcases horig : (s.objs (resolveHit g h)).originalY with _ | y0
  · have hX : (resetPointwise g g.clickableObjects (resolveHit g h)
        (s.objs (resolveHit g h))).originalY = none := by
      rw [resetPointwise_originalY]; exact horig
    rw [hX]
    simp only [Option.getD_none]
    have hXy : (resetPointwise g g.clickableObjects (resolveHit g h)
        (s.objs (resolveHit g h))).pos.y = (s.objs (resolveHit g h)).pos.y := by
      unfold resetPointwise
      split_ifs <;> simp [horig]
    rw [hXy]
    simp [baselineY, horig]
  · rw [resetPointwise_originalY, horig]
    simp [baselineY, horig]

/-- The visual-state separation `onMouseMove` establishes when the resolved
hover target is itself a registered object whose subtree is disjoint from the
other registered objects' subtrees. -/
def hoverFeedbackSpec (g : SceneGraph) (s : TrackerState) (h : Nat) : Prop :=
  (∀ c ∈ g.clickableObjects, c ≠ resolveHit g h →
      (∀ i, inSubtree g c i = true → isMeshN g i = true →
        ((onMouseMove g (some h) s).objs i).opacity = 1)
      ∧ ((onMouseMove g (some h) s).objs c).scale = ⟨1, 1, 1⟩
      ∧ ((onMouseMove g (some h) s).objs c).pos.y = baselineY (s.objs c)
      ∧ ((onMouseMove g (some h) s).objs c).pos.x = (s.objs c).pos.x
      ∧ ((onMouseMove g (some h) s).objs c).pos.z = (s.objs c).pos.z)
  ∧ (∀ i, inSubtree g (resolveHit g h) i = true → isMeshN g i = true →
      ((onMouseMove g (some h) s).objs i).opacity = 4/5)
  ∧ ((onMouseMove g (some h) s).objs (resolveHit g h)).scale = ⟨21/20, 21/20, 21/20⟩
  ∧ ((onMouseMove g (some h) s).objs (resolveHit g h)).pos.y
      = baselineY (s.objs (resolveHit g h)) + 1/20
  ∧ (onMouseMove g (some h) s).cursorPointer = true

/-- Claim C2 (amended): provided the pick resolves to a registered object and
the registered objects' subtrees are pairwise separated (no other registered
object's renderable part lies in the hovered one's subtree), a pointer-move
leaves exactly the resolved object in the hovered visual state — opacity 0.8
on its meshes, scale 1.05, y = baseline + 0.05 — and every other registered
object at baseline: opacity 1.0 on its meshes, unit scale, y restored to its
lazily captured `originalY` (or untouched if never captured), x and z
untouched.  In the repository's fallback configuration the premise fails (the
resolved node is the scene root), and the original claim is false there: see
the counterexample. -/
theorem hover_feedback_amended (g : SceneGraph) (s : TrackerState) (h : Nat)
    (hreg : resolveHit g h ∈ g.clickableObjects)
    (hdisj : ∀ c ∈ g.clickableObjects, c ≠ resolveHit g h →
        ∀ i, i < g.nodes.length → inSubtree g c i = true → isMeshN g i = true →
          inSubtree g (resolveHit g h) i = false) :
    hoverFeedbackSpec g s h := by
  unfold hoverFeedbackSpec
  refine ⟨?_, ?_, ?_, hovered_pos_y g h s, ?_⟩
  · intro c hc hcr
    refine ⟨?_, ?_, ?_, ?_, ?_⟩
    · intro i hsub hm
      have hnot : inSubtree g (resolveHit g h) i = false :=
        hdisj c hc hcr i (isMeshN_lt hm) hsub hm
      have hir : i ≠ resolveHit g h := by
        intro he
        rw [he, inSubtree_self] at hnot
        exact Bool.noConfusion hnot
      have hany : g.clickableObjects.any (fun cc => inSubtree g cc i) = true :=
        List.any_eq_true.mpr ⟨c, hc, hsub⟩
      rw [onMouseMove_objs]
      unfold moveNode hoverNode captureNode resetPointwise
      by_cases hil : i ∈ g.clickableObjects <;>
        simp [hir, hnot, hm, hany, hil]
    · rw [onMouseMove_objs]
      unfold moveNode hoverNode captureNode resetPointwise
      simp [hcr, hc]
    · rw [onMouseMove_objs]
      unfold moveNode hoverNode captureNode resetPointwise
      rcases horig : (s.objs c).originalY with _ | y0 <;>
        simp [hcr, hc, horig, baselineY]
    · rw [onMouseMove_objs]
      unfold moveNode hoverNode captureNode resetPointwise
      rcases horig : (s.objs c).originalY with _ | y0 <;>
        simp [hcr, hc, horig]
    · rw [onMouseMove_objs]
      unfold moveNode hoverNode captureNode resetPointwise
      rcases horig : (s.objs c).originalY with _ | y0 <;>
        simp [hcr, hc, horig]
  · intro i hsub hm
    rw [onMouseMove_objs]
    unfold moveNode hoverNode
    by_cases hir : i = resolveHit g h
    · subst hir
      simp [hsub, hm]
    · simp [hir, hsub, hm]
  · rw [onMouseMove_objs]
    unfold moveNode hoverNode
    simp
  · rw [onMouseMove_cursor]
    rfl

/-- Witness for the amended C2 on the GLTF-style scene `gW`: hovering the
mesh child of group 0 satisfies the premises. -/
theorem hover_feedback_amended_witness :
    (resolveHit gW 1 ∈ gW.clickableObjects)
    ∧ (∀ c ∈ gW.clickableObjects, c ≠ resolveHit gW 1 →
        ∀ i, i < gW.nodes.length → inSubtree gW c i = true → isMeshN gW i = true →
          inSubtree gW (resolveHit gW 1) i = false)
    ∧ hoverFeedbackSpec gW sW 1 :=
  ⟨by decide, by decide, hover_feedback_amended gW sW 1 (by decide) (by decide)⟩

/-- Counterexample to claim C2 as stated: in the fallback configuration the
registered objects are bare meshes whose parent is the scene root, so a hit
on mesh 1 resolves to the (unregistered) scene root; the hover traversal then
sets opacity 0.8 on the meshes of BOTH registered objects, so after the move
there is a registered object, distinct from any single hovered one, that does
not have baseline opacity 1.0. -/
theorem hover_baseline_cex :
    resolveHit gF 1 = 0
    ∧ ¬ (0 ∈ gF.clickableObjects)
    ∧ (1 ∈ gF.clickableObjects) ∧ (2 ∈ gF.clickableObjects) ∧ (1 : Nat) ≠ 2
    ∧ ((onMouseMove gF (some 1) sF).objs 1).opacity = 4/5
    ∧ ((onMouseMove gF (some 1) sF).objs 2).opacity = 4/5
    ∧ ((onMouseMove gF (some 1) sF).objs 0).scale = ⟨21/20, 21/20, 21/20⟩ :=
  ⟨rfl, by decide, by decide, by decide, by decide, rfl, rfl, rfl⟩

/- ### Hit resolution (claim C5) -/

/-- Counterexample to claim C5 as stated: in the nested composite `gN`
(registered group 0 → intermediate group 1 → mesh 2), a hit on the mesh
resolves to the intermediate node 1, which is neither the registered
top-level ancestor 0 nor registered at all — the handler only ever steps one
level up (`object.parent || object`). -/
theorem pick_resolution_cex :
    inSubtree gN 0 2 = true
    ∧ (0 ∈ gN.clickableObjects)
    ∧ resolveHit gN 2 = 1
    ∧ resolveHit gN 2 ≠ 0
    ∧ ¬ (resolveHit gN 2 ∈ gN.clickableObjects) := by
  decide

/-- Claim C5 (amended): the handler resolves a hit to its immediate parent
when one exists (and to the struck node itself otherwise); consequently the
result is the registered top-level object exactly in the case where the
struck mesh is a direct child of it — for deeper nestings an unregistered
intermediate node is returned (see the counterexample), and for a registered
bare mesh its parent (e.g. the scene root) is returned. -/
theorem pick_resolution_amended (g : SceneGraph) (h : Nat) :
    (∀ p, parentOf g h = some p →
        resolveHit g h = p
        ∧ inSubtree g p h = true
        ∧ (p ∈ g.clickableObjects → resolveHit g h ∈ g.clickableObjects))
    ∧ (parentOf g h = none → resolveHit g h = h) := by
  constructor
  · intro p hp
    have hres : resolveHit g h = p := by
      unfold resolveHit
      rw [hp]
    refine ⟨hres, ?_, fun hmem => hres ▸ hmem⟩
    have hnode : ∃ n, g.nodes.get? h = some n := by
      rcases Option.bind_eq_some.mp hp with ⟨n, hn, _⟩
      exact ⟨n, hn⟩
    rcases hnode with ⟨n, hn⟩
    have hlt : h < g.nodes.length := by
      cases Nat.lt_or_ge h g.nodes.length with
      | inl h' => exact h'
      | inr h' => rw [List.get?_eq_none.mpr h'] at hn; cases hn
    unfold inSubtree
    apply decide_eq_true
    rcases Nat.exists_eq_succ_of_ne_zero (Nat.pos_iff_ne_zero.mp (Nat.lt_of_le_of_lt
      (Nat.zero_le h) hlt)) with ⟨k, hk⟩
    rw [hk]
    unfold ancestorChain
    rw [hp]
    exact List.mem_cons_of_mem h (self_mem_ancestorChain g k p)
  · intro hp
    unfold resolveHit
    rw [hp]

/-- Witness for the amended C5 on the nested scene `gN`. -/
theorem pick_resolution_amended_witness :
    (parentOf gN 2 = some 1)
    ∧ (resolveHit gN 2 = 1 ∧ inSubtree gN 1 2 = true
        ∧ (1 ∈ gN.clickableObjects → resolveHit gN 2 ∈ gN.clickableObjects)) :=
  ⟨by decide, (pick_resolution_amended gN 2).1 1 (by decide)⟩

/- ### Camera-flight end pose (claim C4) -/

/-- Counterexample to claim C4 as stated: clicking the (necessarily hovered)
laptop group of `gW` starts a flight whose end position is the object's
*current* position plus (3, 2, 3).  Because hovering raised the object by
0.05, the end position is (1, 2.1, 3), not basePosition + (3, 2, 3)
= (1, 2.05, 3). -/
theorem flight_end_pose_cex :
    ((onMouseClick gW (some 1) (onMouseMove gW (some 1) sW) camEx 2000).flight).map
        Flight.endPosition = some ⟨1, 21/10, 3⟩
    ∧ vadd (sW.objs 0).pos ⟨idealDistance, idealHeight, idealDistance⟩ = ⟨1, 41/20, 3⟩
    ∧ (⟨1, 21/10, 3⟩ : Vec3) ≠ ⟨1, 41/20, 3⟩ := by
  refine ⟨?_, ?_, ?_⟩
  · have hstep : ((onMouseClick gW (some 1) (onMouseMove gW (some 1) sW) camEx 2000).flight).map
        Flight.endPosition = some ⟨-2 + 3, 1/20 + 1/20 + 2, 0 + 3⟩ := rfl
    rw [hstep]
    norm_num [Vec3.mk.injEq]
  · show vadd ⟨-2, 1/20, 0⟩ ⟨idealDistance, idealHeight, idealDistance⟩ = ⟨1, 41/20, 3⟩
    norm_num [vadd, idealDistance, idealHeight, Vec3.mk.injEq]
  · intro hEq
    have := congrArg Vec3.y hEq
    norm_num at this

/-- Claim C4 (amended): the flight's end position is the clicked object's
*current* position plus (idealDistance, idealHeight, idealDistance) = (3,2,3)
and the end look-at target is the current position plus (0, 0.5, 0); the
start values are the live camera pose.  Under the normal flow (the clicked
object was just hovered by the preceding pointer-move), the current vertical
position is the baseline plus the 0.05 hover lift, so the end position's y
is baseline + 0.05 + 2 rather than baseline + 2. -/
theorem flight_end_pose_amended (g : SceneGraph) (h : Nat) (s : TrackerState)
    (cam : CameraPose) (t : ℚ) :
    (onMouseClick g (some h) s cam t).flight
        = some (animateCameraToObject cam (s.objs (resolveHit g h)).pos t)
    ∧ (animateCameraToObject cam (s.objs (resolveHit g h)).pos t).endPosition
        = vadd (s.objs (resolveHit g h)).pos ⟨idealDistance, idealHeight, idealDistance⟩
    ∧ (animateCameraToObject cam (s.objs (resolveHit g h)).pos t).endTarget
        = vadd (s.objs (resolveHit g h)).pos ⟨0, 1/2, 0⟩
    ∧ (animateCameraToObject cam (s.objs (resolveHit g h)).pos t).startPosition
        = cam.position
    ∧ ((onMouseClick g (some h) (onMouseMove g (some h) s) cam t).flight).map
          (fun f => f.endPosition.y)
        = some (baselineY (s.objs (resolveHit g h)) + 1/20 + idealHeight) := by
  refine ⟨rfl, rfl, ?_, rfl, ?_⟩
  · unfold animateCameraToObject vadd
    ext <;> simp <;> ring
  · have hstep : ((onMouseClick g (some h) (onMouseMove g (some h) s) cam t).flight).map
        (fun f => f.endPosition.y)
        = some (((onMouseMove g (some h) s).objs (resolveHit g h)).pos.y + idealHeight) := rfl
    rw [hstep, hovered_pos_y]

/-- Witness for C10 on the GLTF-style scene: hovering node 1 resolves to the
never-hovered group 0 and captures its current y. -/
theorem originalY_lazy_capture_witness :
    ((sW.objs (resolveHit gW 1)).originalY = none)
    ∧ ((addClickableObject gW sW.objs 5 "folder").2 5).originalY = none
    ∧ ((onMouseMove gW (some 1) sW).objs (resolveHit gW 1)).originalY
        = some ((sW.objs (resolveHit gW 1)).pos.y) :=
  ⟨by decide,
   (originalY_lazy_capture gW sW.objs 5 "folder" sW 1 (by decide)).1,
   (originalY_lazy_capture gW sW.objs 5 "folder" sW 1 (by decide)).2.2⟩

/- ### Content dispatch (claim C9) -/

/-- The seven content panels (`showGamesSection` … `showArtworkSection`). -/
inductive ContentSection
  | games
  | apps
  | notebooks
  | about
  | projects
  | resumeSection
  | artwork
deriving DecidableEq

/-- The `switch (type)` of `handleObjectClick` (src/main.js:485-493): the
content panel shown for a `userData.type` tag, `none` when no case matches
(the switch has no default, so an unknown tag silently shows nothing and
throws nothing). -/
def dispatchContent (ty : String) : Option ContentSection :=
  if ty = "laptop" then some ContentSection.games
  else if ty = "phone" then some ContentSection.apps
  else if ty = "notebook" then some ContentSection.notebooks
  else if ty = "businessCard" then some ContentSection.about
  else if ty = "folder" then some ContentSection.projects
  else if ty = "resume" then some ContentSection.resumeSection
  else if ty = "ipad" then some ContentSection.artwork
  else none

/-- Claim C9: content dispatch is a total mapping sending each of the seven
enumerated logical types to its own content payload, and every type tag
outside that set to a silent no-op (no content, no exception — the model is a
total function returning `none`). -/
theorem content_dispatch_total :
    dispatchContent "laptop" = some ContentSection.games
    ∧ dispatchContent "phone" = some ContentSection.apps
    ∧ dispatchContent "notebook" = some ContentSection.notebooks
    ∧ dispatchContent "businessCard" = some ContentSection.about
    ∧ dispatchContent "folder" = some ContentSection.projects
    ∧ dispatchContent "resume" = some ContentSection.resumeSection
    ∧ dispatchContent "ipad" = some ContentSection.artwork
    ∧ ∀ ty : String,
        ty ∉ [ "laptop", "phone", "notebook", "businessCard", "folder", "resume", "ipad" ] →
        dispatchContent ty = none := by
  refine ⟨rfl, rfl, rfl, rfl, rfl, rfl, rfl, ?_⟩
  intro ty hty
  simp only [List.mem_cons, List.not_mem_nil, or_false, not_or] at hty
  obtain ⟨h1, h2, h3, h4, h5, h6, h7⟩ := hty
  simp [dispatchContent, h1, h2, h3, h4, h5, h6, h7]

/-- Witness for C9 at the concrete unknown tag "desk". -/
theorem content_dispatch_total_witness :
    ("desk" ∉ [ "laptop", "phone", "notebook", "businessCard", "folder", "resume", "ipad" ])
    ∧ dispatchContent "desk" = none :=
  ⟨by decide, content_dispatch_total.2.2.2.2.2.2.2 "desk" (by decide)⟩

/- ### Model loading and registration (claim C3) -/

/-- The seven named models requested by `loadAllModels` (src/main.js:51-57). -/
inductive ModelName
  | laptop
  | phone
  | notebook
  | businessCard
  | folder
  | resumeModel
  | ipad
deriving DecidableEq

/-- The request order of `loadAllModels`, which is also the registration
order of `setupInteractions` (src/main.js:294). -/
def allModelNames : List ModelName :=
  [ModelName.laptop, ModelName.phone, ModelName.notebook, ModelName.businessCard,
   ModelName.folder, ModelName.resumeModel, ModelName.ipad]

lemma mem_allModelNames (n : ModelName) : n ∈ allModelNames := by
  cases n <;> decide

/-- Outcome of `loadAllModels` (src/main.js:44-68): the `Promise.race` of
`Promise.all(loadingPromises)` against the 10-second timeout resolves `true`
exactly when every individual load succeeded before the timeout
(`loaded n = true` for all `n` and the timeout did not fire first); any
individual rejection or the timeout makes it resolve `false`. -/
def loadAllModels (loaded : ModelName → Bool) (timedOut : Bool) : Bool :=
  !timedOut && allModelNames.all loaded

/-- Whether a registered desk object is a loaded GLTF model or a
procedurally built fallback mesh. -/
inductive HandleKind
  | gltfModel
  | fallbackGeometry
deriving DecidableEq

/-- One registered interactive object: its logical type tag and which kind of
handle backs it. -/
structure RegisteredObject where
  name : ModelName
  kind : HandleKind
deriving DecidableEq

/-- Source `init` (src/main.js:134-144) followed by `setupInteractions`: when
`loadAllModels` resolved `true`, `add3DObjects` registers each non-null
`getModel` handle (all seven, since `true` means all loaded); otherwise
`addFallbackObjects` registers seven fallback meshes under the same seven
type tags. -/
def registeredAfterInit (loaded : ModelName → Bool) (timedOut : Bool) :
    List RegisteredObject :=
  if loadAllModels loaded timedOut then
    allModelNames.filterMap (fun n =>
      if loaded n then some ⟨n, HandleKind.gltfModel⟩ else none)
  else
    allModelNames.map (fun n => ⟨n, HandleKind.fallbackGeometry⟩)

/-- Modelled from the spec: the registration outcome the claim describes —
"each handle that loaded successfully is registered with its logical type,
and each handle that failed to load leaves its desk slot empty".  Used only
to compare the claimed behaviour against `registeredAfterInit`. -/
def specClaimedRegistration (loaded : ModelName → Bool) : List RegisteredObject :=
  allModelNames.filterMap (fun n =>
    if loaded n then some ⟨n, HandleKind.gltfModel⟩ else none)

/-- The loading outcome where everything but the folder model loads. -/
def loadedExceptFolder : ModelName → Bool :=
  fun n => match n with
  | ModelName.folder => false
  | _ => true

/-- Counterexample to claim C3 as stated: if the folder model fails (and no
timeout fires), the code registers seven *fallback* objects — the six
successfully loaded handles are not registered, and the folder slot is not
left empty. -/
theorem registration_partial_failure_cex :
    loadedExceptFolder ModelName.laptop = true
    ∧ loadAllModels loadedExceptFolder false = false
    ∧ registeredAfterInit loadedExceptFolder false
        = allModelNames.map (fun n => ⟨n, HandleKind.fallbackGeometry⟩)
    ∧ registeredAfterInit loadedExceptFolder false
        ≠ specClaimedRegistration loadedExceptFolder
    ∧ (⟨ModelName.folder, HandleKind.fallbackGeometry⟩ : RegisteredObject)
        ∈ registeredAfterInit loadedExceptFolder false := by
  decide

/-- Claim C3 (amended): registration is all-or-nothing.  Every registered
list carries exactly the seven logical types in request order; when
`loadAllModels` resolves `true` (all seven loaded before the timeout) the
seven loaded GLTF handles are registered, and when it resolves `false` (any
individual failure, or timeout) seven fallback meshes are registered instead
— loaded handles are discarded and no desk slot is left empty. -/
theorem registration_all_or_nothing (loaded : ModelName → Bool) (timedOut : Bool) :
    (registeredAfterInit loaded timedOut).map RegisteredObject.name = allModelNames
    ∧ (loadAllModels loaded timedOut = true →
        timedOut = false ∧ (∀ n, loaded n = true)
        ∧ ∀ r ∈ registeredAfterInit loaded timedOut, r.kind = HandleKind.gltfModel)
    ∧ (loadAllModels loaded timedOut = false →
        ∀ r ∈ registeredAfterInit loaded timedOut,
          r.kind = HandleKind.fallbackGeometry) := by
  by_cases hl : loadAllModels loaded timedOut = true
  · have hl2 := hl
    unfold loadAllModels at hl2
    simp only [Bool.and_eq_true, Bool.not_eq_true', List.all_eq_true] at hl2
    have htime : timedOut = false := hl2.1
    have hall : ∀ n, loaded n = true := fun n => hl2.2 n (mem_allModelNames n)
    have hreg : registeredAfterInit loaded timedOut
        = allModelNames.map (fun n => ⟨n, HandleKind.gltfModel⟩) := by
      unfold registeredAfterInit
      rw [if_pos hl]
      unfold allModelNames
      simp [hall ModelName.laptop, hall ModelName.phone, hall ModelName.notebook,
        hall ModelName.businessCard, hall ModelName.folder, hall ModelName.resumeModel,
        hall ModelName.ipad, List.filterMap]
    refine ⟨?_, ?_, ?_⟩
    · rw [hreg]
      simp [allModelNames]
    · intro _
      refine ⟨htime, hall, ?_⟩
      intro r hr
      rw [hreg] at hr
      rcases List.mem_map.mp hr with ⟨n, _, hn⟩
      rw [← hn]
    · intro hfalse
      rw [hl] at hfalse
      cases hfalse
  · have hl' : loadAllModels loaded timedOut = false := Bool.eq_false_iff.mpr hl
    have hreg : registeredAfterInit loaded timedOut
        = allModelNames.map (fun n => ⟨n, HandleKind.fallbackGeometry⟩) := by
      unfold registeredAfterInit
      rw [if_neg (by rw [hl']; exact Bool.false_ne_true)]
    refine ⟨?_, ?_, ?_⟩
    · rw [hreg]
      simp [allModelNames]
    · intro htrue
      exact absurd htrue hl
    · intro _ r hr
      rw [hreg] at hr
      rcases List.mem_map.mp hr with ⟨n, _, hn⟩
      rw [← hn]

/-- Witness for the amended C3 at the partial-failure outcome. -/
theorem registration_all_or_nothing_witness :
    (loadAllModels loadedExceptFolder false = false)
    ∧ ∀ r ∈ registeredAfterInit loadedExceptFolder false,
        r.kind = HandleKind.fallbackGeometry :=
  ⟨by decide,
   (registration_all_or_nothing loadedExceptFolder false).2.2 (by decide)⟩

/- ### The requestAnimationFrame loop and flight supersession (claim C1) -/

/-- Whether the self-rescheduling closure of flight `f` runs (and writes the
camera) at frame time `t`: it runs at every frame after its start until (and
including) the first frame at which its progress reaches 1 — i.e. while every
earlier post-start frame still had progress < 1 (was earlier than
`startTime + duration`).  (src/main.js:534-536,539.) -/
def flightWritesAt (f : Flight) (frames : List ℚ) (t : ℚ) : Bool :=
  decide (f.startTime < t
    ∧ ∀ u ∈ frames, f.startTime < u → u < t → u < f.startTime + flightDuration)

/-- One animation frame at time `t`: each still-registered flight closure
writes the camera pose, in registration order, so the most recently started
flight writes last. -/
def frameWrite (flights : List Flight) (frames : List ℚ) (t : ℚ) (cam : CameraPose) :
    CameraPose :=
  flights.foldl (fun c f => if flightWritesAt f frames t then flightPose f t else c) cam

/-- Run the frames in `cur`; `frames` is the full frame list, consulted by the
re-registration condition. -/
def runFramesAux (flights : List Flight) (frames cur : List ℚ) (cam : CameraPose) :
    CameraPose :=
  cur.foldl (fun c t => frameWrite flights frames t c) cam

/-- End-of-frame camera pose after all frames have run. -/
def runFrames (flights : List Flight) (frames : List ℚ) (cam : CameraPose) : CameraPose :=
  runFramesAux flights frames frames cam

/-- The flight started by a second `animateCameraToObject` call at time `tB`:
its start values are the LIVE camera pose at that moment (src/main.js:499-500)
— the pose left by all frames before `tB`, during which only the first flight
was active. -/
def secondFlight (cam0 : CameraPose) (p1 p2 : Vec3) (tA tB : ℚ) (frames : List ℚ) :
    Flight :=
  animateCameraToObject
    (runFrames [animateCameraToObject cam0 p1 tA]
      (frames.filter (fun u => decide (u < tB))) cam0)
    p2 tB

/-- Clicking an object at `p1` at time `tA` and an object at `p2` at time
`tB`: the first closure is NOT cancelled — both closures stay registered and
run in registration order each frame until their own completion, exactly as
the source's two `requestAnimationFrame` chains do. -/
def twoFlightRun (cam0 : CameraPose) (p1 p2 : Vec3) (tA tB : ℚ) (frames : List ℚ) :
    CameraPose :=
  runFrames [animateCameraToObject cam0 p1 tA, secondFlight cam0 p1 p2 tA tB frames]
    frames cam0

lemma flightWritesAt_iff (f : Flight) (frames : List ℚ) (t : ℚ) :
    flightWritesAt f frames t = true
      ↔ (f.startTime < t
          ∧ ∀ u ∈ frames, f.startTime < u → u < t → u < f.startTime + flightDuration) := by
  unfold flightWritesAt
  exact decide_eq_true_iff

lemma frameWrite_pair (A B : Flight) (frames : List ℚ) (t : ℚ) (cam : CameraPose) :
    frameWrite [A, B] frames t cam
      = if flightWritesAt B frames t = true then flightPose B t
        else if flightWritesAt A frames t = true then flightPose A t else cam := by
  by_cases hA : flightWritesAt A frames t <;>
    by_cases hB : flightWritesAt B frames t <;>
      simp [frameWrite, hA, hB]

lemma frameWrite_of_inactive {flights : List Flight} {frames : List ℚ} {t : ℚ}
    (hn : ∀ f ∈ flights, flightWritesAt f frames t = false) (cam : CameraPose) :
    frameWrite flights frames t cam = cam := by
  induction flights generalizing cam with
  | nil => rfl
  | cons f fs ih =>
      have hf : flightWritesAt f frames t = false := hn f (List.mem_cons_self f fs)
      show frameWrite fs frames t (if flightWritesAt f frames t then flightPose f t else cam)
            = cam
      rw [hf]
      simp only [Bool.false_eq_true, if_false]
      exact ih (fun f' hf' => hn f' (List.mem_cons_of_mem f hf')) cam

lemma runFramesAux_append (flights : List Flight) (frames xs ys : List ℚ)
    (cam : CameraPose) :
    runFramesAux flights frames (xs ++ ys) cam
      = runFramesAux flights frames ys (runFramesAux flights frames xs cam) := by
  unfold runFramesAux
  exact List.foldl_append _ _ _ _

lemma runFramesAux_const {flights : List Flight} {frames cur : List ℚ}
    (hn : ∀ t ∈ cur, ∀ f ∈ flights, flightWritesAt f frames t = false) (cam : CameraPose) :
    runFramesAux flights frames cur cam = cam := by
  induction cur generalizing cam with
  | nil => rfl
  | cons t rest ih =>
      show runFramesAux flights frames rest (frameWrite flights frames t cam) = cam
      rw [frameWrite_of_inactive (hn t (List.mem_cons_self t rest)) cam]
      exact ih (fun u hu => hn u (List.mem_cons_of_mem t hu)) cam

lemma exists_first_split {α : Type} (p : α → Prop) [DecidablePred p] :
    ∀ l : List α, (∃ t ∈ l, p t) →
      ∃ xs t ys, l = xs ++ t :: ys ∧ p t ∧ ∀ x ∈ xs, ¬ p x := by
  intro l
  induction l with
  | nil => intro h; simp at h
  | cons a as ih =>
      intro hex
      by_cases hpa : p a
      · exact ⟨[], a, as, rfl, hpa, by simp⟩
      · have hex' : ∃ t ∈ as, p t := by
          rcases hex with ⟨t, ht, hpt⟩
          rcases List.mem_cons.mp ht with h | h
          · exact absurd hpt (h ▸ hpa)
          · exact ⟨t, h, hpt⟩
        rcases ih hex' with ⟨xs, t, ys, heq, hpt, hxs⟩
        refine ⟨a :: xs, t, ys, by rw [heq]; rfl, hpt, ?_⟩
        intro x hx
        rcases List.mem_cons.mp hx with h | h
        · exact h ▸ hpa
        · exact hxs x h

/-- With two registered flights, the end-of-frame pose after the second
flight's duration has elapsed is exactly the second flight's end pose: the
second closure writes last each frame, its completion write happens at the
first frame past its end time, and afterwards neither closure runs again. -/
lemma runFrames_two_flights_final (A B : Flight) (frames : List ℚ) (cam0 : CameraPose)
    (hsort : frames.Pairwise (· < ·))
    (hABlt : A.startTime < B.startTime)
    (hdone : ∃ t ∈ frames, B.startTime + flightDuration ≤ t) :
    runFrames [A, B] frames cam0 = ⟨B.endPosition, B.endTarget⟩ := by
  rcases exists_first_split (fun t => B.startTime + flightDuration ≤ t) frames hdone with
    ⟨xs, tstar, ys, heq, hp, hxs⟩
  have hxslt : ∀ x ∈ xs, x < B.startTime + flightDuration :=
    fun x hx => not_le.mp (hxs x hx)
  have hsort2 : (xs ++ tstar :: ys).Pairwise (· < ·) := by rw [← heq]; exact hsort
  have hys : ∀ y ∈ ys, tstar < y :=
    (List.pairwise_cons.mp (List.pairwise_append.mp hsort2).2.1).1
  have htstar_mem : tstar ∈ frames := by
    rw [heq]; exact List.mem_append_right _ (List.mem_cons_self _ _)
  have htBtstar : B.startTime < tstar := by
    have := flightDuration_pos
    linarith
  have hBw : flightWritesAt B frames tstar = true := by
    rw [flightWritesAt_iff]
    refine ⟨htBtstar, ?_⟩
    intro u hu h1 h2
    rw [heq] at hu
    rcases List.mem_append.mp hu with hux | hucons
    · exact hxslt u hux
    · rcases List.mem_cons.mp hucons with rfl | huy
      · exact absurd h2 (lt_irrefl _)
      · exact absurd h2 (not_lt.mpr (le_of_lt (hys u huy)))
  have hafter : ∀ u ∈ ys, ∀ f ∈ [A, B], flightWritesAt f frames u = false := by
    intro u hu f hf
    have htu : tstar < u := hys u hu
    rcases List.mem_cons.mp hf with rfl | hf2
    · unfold flightWritesAt
      apply decide_eq_false
      rintro ⟨h1, h2⟩
      have h3 := h2 tstar htstar_mem (by linarith) htu
      linarith
    · rcases List.mem_cons.mp hf2 with rfl | hf3
      · unfold flightWritesAt
        apply decide_eq_false
        rintro ⟨h1, h2⟩
        have h3 := h2 tstar htstar_mem htBtstar htu
        linarith
      · exact absurd hf3 (List.not_mem_nil f)
  have hBpose : flightPose B tstar = ⟨B.endPosition, B.endTarget⟩ := flightPose_of_done hp
  calc runFrames [A, B] frames cam0
      = runFramesAux [A, B] frames (xs ++ tstar :: ys) cam0 := by
        unfold runFrames
        rw [← heq]
    _ = runFramesAux [A, B] frames (tstar :: ys) (runFramesAux [A, B] frames xs cam0) :=
        runFramesAux_append _ _ _ _ _
    _ = runFramesAux [A, B] frames ys
          (frameWrite [A, B] frames tstar (runFramesAux [A, B] frames xs cam0)) := rfl
    _ = ⟨B.endPosition, B.endTarget⟩ := by
        rw [frameWrite_pair, if_pos hBw, hBpose]
        exact runFramesAux_const hafter _

/-- While both closures are registered, the end-of-frame camera position never
equals the first flight's end position: before the first flight completes its
writes are strict interpolations (≠ end for a non-degenerate flight), its
completion write can only happen at a frame where the second closure still
writes afterwards, and every second-closure write avoids that position by
hypothesis. -/
lemma runFrames_two_flights_avoid (A B : Flight) (frames : List ℚ)
    (hABlt : A.startTime < B.startTime)
    (hBlive : B.startTime < A.startTime + flightDuration)
    (hne : A.startPosition ≠ A.endPosition)
    (havoid : ∀ t ∈ frames, B.startTime < t →
        (flightPose B t).position ≠ A.endPosition) :
    ∀ cur : List ℚ, (∀ t ∈ cur, t ∈ frames) → ∀ cam : CameraPose,
      cam.position ≠ A.endPosition →
      (runFramesAux [A, B] frames cur cam).position ≠ A.endPosition := by
  have hstep : ∀ t ∈ frames, ∀ cam : CameraPose, cam.position ≠ A.endPosition →
      (frameWrite [A, B] frames t cam).position ≠ A.endPosition := by
    intro t ht cam hcam
    rw [frameWrite_pair]
    by_cases hB : flightWritesAt B frames t = true
    · rw [if_pos hB]
      exact havoid t ht ((flightWritesAt_iff B frames t).mp hB).1
    · rw [if_neg hB]
      by_cases hA : flightWritesAt A frames t = true
      · rw [if_pos hA]
        rcases (flightWritesAt_iff A frames t).mp hA with ⟨h1, h2⟩
        by_cases hend : A.startTime + flightDuration ≤ t
        · exfalso
          apply hB
          rw [flightWritesAt_iff]
          refine ⟨by linarith, ?_⟩
          intro u hu hu1 hu2
          have h3 := h2 u hu (by linarith) hu2
          linarith
        · push_neg at hend
          show (lerpVectors A.startPosition A.endPosition
              (easeInOut (flightProgress A t))) ≠ A.endPosition
          apply lerpVectors_ne_right hne
          apply ne_of_lt
          apply easeInOut_lt_one
          · exact flightProgress_nonneg (le_of_lt h1)
          · exact flightProgress_lt_one hend
      · rw [if_neg hA]
        exact hcam
  intro cur
  induction cur with
  | nil =>
      intro _ cam hcam
      exact hcam
  | cons t rest ih =>
      intro hsub cam hcam
      show (runFramesAux [A, B] frames rest (frameWrite [A, B] frames t cam)).position
            ≠ A.endPosition
      exact ih (fun u hu => hsub u (List.mem_cons_of_mem t hu)) _
        (hstep t (hsub t (List.mem_cons_self t rest)) cam hcam)

/-- Claim C1: flight supersession.  A second `animateCameraToObject` call at
`tB`, while the flight started at `tA` is still in progress, captures the
live camera pose as its start values (second conjunct, definitional); the
newer closure writes last in every frame, so once the second flight's
duration elapses the end-of-frame camera pose equals the second flight's end
pose exactly (first conjunct), and at no frame boundary does the camera sit
at the first flight's end pose (third conjunct) — provided the camera did not
already start there and the second flight's interpolation path avoids it. -/
theorem camera_flight_supersedes
    (cam0 : CameraPose) (p1 p2 : Vec3) (tA tB : ℚ) (frames : List ℚ)
    (hsort : frames.Pairwise (· < ·))
    (hAB : tA < tB) (hBlive : tB < tA + flightDuration)
    (hdone : ∃ t ∈ frames, tB + flightDuration ≤ t)
    (hstart : cam0.position ≠ (animateCameraToObject cam0 p1 tA).endPosition)
    (havoid : ∀ t ∈ frames, tB < t →
        (flightPose (secondFlight cam0 p1 p2 tA tB frames) t).position
          ≠ (animateCameraToObject cam0 p1 tA).endPosition) :
    twoFlightRun cam0 p1 p2 tA tB frames
      = ⟨⟨p2.x + idealDistance, p2.y + idealHeight, p2.z + idealDistance⟩,
         ⟨p2.x, p2.y + 1/2, p2.z⟩⟩
    ∧ (secondFlight cam0 p1 p2 tA tB frames).startPosition
        = (runFrames [animateCameraToObject cam0 p1 tA]
            (frames.filter (fun u => decide (u < tB))) cam0).position
    ∧ ∀ n : Nat,
        (runFramesAux
            [animateCameraToObject cam0 p1 tA, secondFlight cam0 p1 p2 tA tB frames]
            frames (frames.take n) cam0).position
          ≠ (animateCameraToObject cam0 p1 tA).endPosition := by
  refine ⟨?_, rfl, ?_⟩
  · exact runFrames_two_flights_final (animateCameraToObject cam0 p1 tA)
      (secondFlight cam0 p1 p2 tA tB frames) frames cam0 hsort hAB hdone
  · intro n
    exact runFrames_two_flights_avoid (animateCameraToObject cam0 p1 tA)
      (secondFlight cam0 p1 p2 tA tB frames) frames hAB hBlive hstart havoid
      (frames.take n) (fun t ht => List.take_subset n frames ht) cam0 hstart

/-- Witness for C1: click the laptop position at t=0 and the phone position
at t=1000 (inside the first flight's 1500-unit duration); by the frame after
t=2500 the camera sits exactly at the second flight's end pose. -/
theorem camera_flight_supersedes_witness :
    ((0 : ℚ) < 1000 ∧ (1000 : ℚ) < 0 + flightDuration
      ∧ ∃ t ∈ [(250 : ℚ), 500, 750, 2500, 2600], 1000 + flightDuration ≤ t)
    ∧ twoFlightRun camEx ⟨-2, 0, 0⟩ ⟨2, 0, -1⟩ 0 1000 [250, 500, 750, 2500, 2600]
        = ⟨⟨2 + idealDistance, 0 + idealHeight, -1 + idealDistance⟩,
           ⟨2, 0 + 1/2, -1⟩⟩ := by
  constructor
  · exact ⟨by norm_num, by norm_num [flightDuration],
      ⟨2500, by simp, by norm_num [flightDuration]⟩⟩
  · have hmain := camera_flight_supersedes camEx ⟨-2, 0, 0⟩ ⟨2, 0, -1⟩ 0 1000
      [250, 500, 750, 2500, 2600]
      (by decide)
      (by norm_num)
      (by norm_num [flightDuration])
      ⟨2500, by simp, by norm_num [flightDuration]⟩
      (by
        intro h
        have hx := congrArg Vec3.x h
        norm_num [camEx, animateCameraToObject, idealDistance] at hx)
      (by
        intro t ht htB
        fin_cases ht
        · exact absurd htB (by norm_num)
        · exact absurd htB (by norm_num)
        · exact absurd htB (by norm_num)
        · rw [flightPose_of_done
            (by norm_num [secondFlight, animateCameraToObject, flightDuration])]
          intro h
          have hx := congrArg Vec3.x h
          norm_num [secondFlight, animateCameraToObject, idealDistance] at hx
        · rw [flightPose_of_done
            (by norm_num [secondFlight, animateCameraToObject, flightDuration])]
          intro h
          have hx := congrArg Vec3.x h
          norm_num [secondFlight, animateCameraToObject, idealDistance] at hx)
    exact hmain.1
